import Mathlib

/-!
Verification of the collision-detection and ground/orientation core of the
bevy-jam-3 platformer (src/collisions.rs, src/physics.rs, src/player.rs).

Numeric model: the game's f32 arithmetic is embedded as exact rational
arithmetic extended with the IEEE special values NaN, +inf and -inf
(`EFloat`).  Productions of special values mirror IEEE-754: 1/0 = +inf,
0 * inf = NaN, comparisons involving NaN are false.  Square roots
(`Vec2::length`, used by `normalize`) are modelled by an exact rational
square root that agrees with f32 on perfect squares; all concrete inputs
used below have exactly representable lengths.  Trigonometric constants
(`Vec2::from_angle(PI)` / `from_angle(PI/2)` in `ground_detection`) are
modelled by their exact mathematical values, i.e. 180 and 90 degree
rotations.
-/

/-- IEEE-style scalar: a finite rational, an infinity, or NaN. -/
inductive EFloat where
  | nan
  | pinf
  | ninf
  | fin (q : ℚ)
deriving DecidableEq, Repr

namespace EFloat

def isNaN : EFloat → Bool
  | nan => true
  | _ => false

/-- IEEE `<` as a boolean: any comparison involving NaN is false. -/
def blt : EFloat → EFloat → Bool
  | nan, _ => false
  | _, nan => false
  | ninf, ninf => false
  | ninf, _ => true
  | fin _, ninf => false
  | fin a, fin b => decide (a < b)
  | fin _, pinf => true
  | pinf, _ => false

/-- IEEE `<=` as a boolean: any comparison involving NaN is false. -/
def ble : EFloat → EFloat → Bool
  | nan, _ => false
  | _, nan => false
  | ninf, _ => true
  | fin _, ninf => false
  | fin a, fin b => decide (a ≤ b)
  | fin _, pinf => true
  | pinf, pinf => true
  | pinf, _ => false

def neg : EFloat → EFloat
  | nan => nan
  | pinf => ninf
  | ninf => pinf
  | fin q => fin (-q)

/-- IEEE addition on special values; +inf + -inf = NaN. -/
def add : EFloat → EFloat → EFloat
  | nan, _ => nan
  | _, nan => nan
  | pinf, ninf => nan
  | ninf, pinf => nan
  | pinf, _ => pinf
  | _, pinf => pinf
  | ninf, _ => ninf
  | _, ninf => ninf
  | fin a, fin b => fin (a + b)

/-- IEEE multiplication of a finite value by an extended value;
0 * inf = NaN. -/
def mulQ (q : ℚ) : EFloat → EFloat
  | nan => nan
  | pinf => if 0 < q then pinf else if q < 0 then ninf else nan
  | ninf => if 0 < q then ninf else if q < 0 then pinf else nan
  | fin r => fin (q * r)

end EFloat

/-- Largest `m ≤ k` with `m * m ≤ n` (0 when none), by downward scan. -/
def isqrtGo (n : ℕ) : ℕ → ℕ
  | 0 => 0
  | k + 1 => if (k + 1) * (k + 1) ≤ n then k + 1 else isqrtGo n k

/-- Integer square root, exact on perfect squares. -/
def isqrt (n : ℕ) : ℕ := isqrtGo n n

/-- Rational square root; agrees with f32 sqrt on perfect squares
(numerator and denominator both perfect squares), which covers every
concrete length computed below. -/
def ratSqrt (q : ℚ) : ℚ := (isqrt q.num.toNat : ℚ) / (isqrt q.den : ℚ)

/-- 2D vector of exact rationals (model of glam's `Vec2` for finite data). -/
structure Vec2 where
  x : ℚ
  y : ℚ
deriving DecidableEq, Repr

namespace Vec2

instance : Add Vec2 := ⟨fun a b => ⟨a.x + b.x, a.y + b.y⟩⟩

instance : Sub Vec2 := ⟨fun a b => ⟨a.x - b.x, a.y - b.y⟩⟩

instance : Neg Vec2 := ⟨fun a => ⟨-a.x, -a.y⟩⟩

instance : Mul Vec2 := ⟨fun a b => ⟨a.x * b.x, a.y * b.y⟩⟩

def zero : Vec2 := ⟨0, 0⟩

def smul (q : ℚ) (v : Vec2) : Vec2 := ⟨q * v.x, q * v.y⟩

def divQ (v : Vec2) (q : ℚ) : Vec2 := ⟨v.x / q, v.y / q⟩

def absV (v : Vec2) : Vec2 := ⟨|v.x|, |v.y|⟩

def dot (a b : Vec2) : ℚ := a.x * b.x + a.y * b.y

def perpDot (a b : Vec2) : ℚ := a.x * b.y - a.y * b.x

def lengthSq (v : Vec2) : ℚ := v.x * v.x + v.y * v.y

def length (v : Vec2) : ℚ := ratSqrt v.lengthSq

/-- `Vec2::normalize`; the zero vector never reaches this in the modelled
code paths (`sweep_aabb` guards `delta == 0`, rays are non-zero). -/
def normalize (v : Vec2) : Vec2 := v.divQ v.length

/-- `Vec2::from_angle(PI).rotate(v)`: 180 degree rotation. -/
def rot180 (v : Vec2) : Vec2 := ⟨-v.x, -v.y⟩

/-- `Vec2::from_angle(PI / 2.).rotate(v)`: 90 degree ccw rotation. -/
def rot90 (v : Vec2) : Vec2 := ⟨-v.y, v.x⟩

/-- `glam::Vec2::angle_between(a, b) == 0.0`: the angle
`atan2(perp_dot a b, dot a b)` is zero, i.e. the vectors point the same
way (`b` a nonnegative multiple of `a` for the nonzero vectors used here). -/
def angleZero (a b : Vec2) : Bool := decide (a.perpDot b = 0 ∧ 0 ≤ a.dot b)

/-- Componentwise clamp, as glam's `Vec2::clamp` with `-m` and `m`. -/
def clampSym (v : Vec2) (m : ℚ) : Vec2 :=
  ⟨if v.x < -m then -m else if m < v.x then m else v.x,
   if v.y < -m then -m else if m < v.y then m else v.y⟩

end Vec2

/-- 2D vector of extended scalars, for data that can carry infinities
(`RayIntersection::point`, `Sweep::position`, transforms fed by them). -/
structure EVec2 where
  x : EFloat
  y : EFloat
deriving DecidableEq, Repr

namespace EVec2

def zero : EVec2 := ⟨.fin 0, .fin 0⟩

def ofVec2 (v : Vec2) : EVec2 := ⟨.fin v.x, .fin v.y⟩

def add (a b : EVec2) : EVec2 := ⟨EFloat.add a.x b.x, EFloat.add a.y b.y⟩

def addV (a : EVec2) (v : Vec2) : EVec2 := add a (ofVec2 v)

def sub (a b : EVec2) : EVec2 := add a ⟨EFloat.neg b.x, EFloat.neg b.y⟩

/-- Extended scalar times finite vector, componentwise IEEE products. -/
def smulE (t : EFloat) (v : Vec2) : EVec2 := ⟨EFloat.mulQ v.x t, EFloat.mulQ v.y t⟩

end EVec2

/-- `physics::Direction`. -/
inductive Direction where
  | Up
  | Down
  | Left
  | Right
deriving DecidableEq, Repr

namespace Direction

def reverse : Direction → Direction
  | Down => Up
  | Up => Down
  | Left => Right
  | Right => Left

def as_vec2 : Direction → Vec2
  | Down => ⟨0, -1⟩
  | Up => ⟨0, 1⟩
  | Left => ⟨-1, 0⟩
  | Right => ⟨1, 0⟩

/-- rotate 90deg counter clockwise. -/
def ccw : Direction → Direction
  | Down => Right
  | Up => Left
  | Left => Down
  | Right => Up

/-- rotate 90deg clockwise. -/
def cw : Direction → Direction
  | Down => Left
  | Up => Right
  | Left => Up
  | Right => Down

def from_vec2 (source : Vec2) : Option Direction :=
  if source = ⟨0, -1⟩ then some Down
  else if source = ⟨0, 1⟩ then some Up
  else if source = ⟨-1, 0⟩ then some Left
  else if source = ⟨1, 0⟩ then some Right
  else none

/-- `GravityDirection::forward`: the direction 90deg from gravity that
counts as "forward" movement. -/
def forward : Direction → Direction
  | Down => Left
  | Up => Right
  | Left => Up
  | Right => Down

end Direction

/-! ## collisions.rs: geometry primitives and intersection tests -/

/-- `collisions::RayIntersection`. -/
structure RayIntersection where
  toi : EFloat
  point : EVec2
  normal : Vec2
  ray_origin : Vec2
  ray_direction : Vec2
deriving DecidableEq, Repr

/-- `collisions::c_min`: toi-min reducer with NaN tie-break. -/
def c_min (a b : RayIntersection) : RayIntersection :=
  if EFloat.blt a.toi b.toi || (!a.toi.isNaN && b.toi.isNaN) then a else b

/-- `collisions::c_max`: toi-max reducer with NaN tie-break. -/
def c_max (a b : RayIntersection) : RayIntersection :=
  if EFloat.blt b.toi a.toi || (!a.toi.isNaN && b.toi.isNaN) then a else b

/-- IEEE reciprocal of a finite value: `recip 0 = +inf`. -/
def recipQ (q : ℚ) : EFloat := if q = 0 then .pinf else .fin q⁻¹

/-- The `left` candidate of the slab test: toi along x to the bottom-left
corner offset, normal `Direction::Left`. -/
def slabLeft (ray_origin ray box_center box_size : Vec2) : RayIntersection :=
  ⟨EFloat.mulQ (box_center - box_size.divQ 2 - ray_origin).x (recipQ ray.normalize.x),
   EVec2.zero, Direction.Left.as_vec2, ray_origin, ray⟩

/-- The `right` candidate: toi along x to the top-right corner offset. -/
def slabRight (ray_origin ray box_center box_size : Vec2) : RayIntersection :=
  ⟨EFloat.mulQ (box_center + box_size.divQ 2 - ray_origin).x (recipQ ray.normalize.x),
   EVec2.zero, Direction.Right.as_vec2, ray_origin, ray⟩

/-- The `top` candidate: toi along y to the top-right corner offset. -/
def slabTop (ray_origin ray box_center box_size : Vec2) : RayIntersection :=
  ⟨EFloat.mulQ (box_center + box_size.divQ 2 - ray_origin).y (recipQ ray.normalize.y),
   EVec2.zero, Direction.Up.as_vec2, ray_origin, ray⟩

/-- The `bottom` candidate: toi along y to the bottom-left corner offset. -/
def slabBottom (ray_origin ray box_center box_size : Vec2) : RayIntersection :=
  ⟨EFloat.mulQ (box_center - box_size.divQ 2 - ray_origin).y (recipQ ray.normalize.y),
   EVec2.zero, Direction.Down.as_vec2, ray_origin, ray⟩

/-- The slab reduction inside `Ray::intersect_aabb`: the four axis
candidates combined into `(tmin, tmax)`. -/
def slabs (ray_origin ray box_center box_size : Vec2) :
    RayIntersection × RayIntersection :=
  let left := slabLeft ray_origin ray box_center box_size
  let right := slabRight ray_origin ray box_center box_size
  let top := slabTop ray_origin ray box_center box_size
  let bottom := slabBottom ray_origin ray box_center box_size
  (c_max (c_min left right) (c_min top bottom),
   c_min (c_max left right) (c_max top bottom))

/-- `Ray::intersect_aabb`. -/
def Ray.intersect_aabb (ray_origin ray box_center box_size : Vec2) :
    Option RayIntersection :=
  let t := slabs ray_origin ray box_center box_size
  let tmin := t.1
  let tmax := t.2
  let len := ray.length
  if EFloat.blt tmax.toi tmin.toi
      || (EFloat.blt tmin.toi (.fin 0) && EFloat.blt tmax.toi (.fin 0))
      || (EFloat.blt tmin.toi (.fin 0) && EFloat.blt (.fin len) tmax.toi)
      || (EFloat.blt (.fin 0) tmin.toi && EFloat.ble (.fin len) tmin.toi) then
    none
  else if EFloat.ble (.fin 0) tmin.toi then
    some { tmin with
      point := EVec2.add (EVec2.ofVec2 ray_origin) (EVec2.smulE tmin.toi ray.normalize) }
  else
    some { tmax with
      point := EVec2.add (EVec2.ofVec2 ray_origin) (EVec2.smulE tmax.toi ray.normalize) }

/-- `collisions::AabbIntersection`. -/
structure AabbIntersection where
  delta : Vec2
  normal : Vec2
  point : Vec2
deriving DecidableEq, Repr

/-- `Rect::inter_aabb`: static separating-axis overlap test. -/
def Rect.inter_aabb (a_pos a_size b_pos b_size : Vec2) :
    Option AabbIntersection :=
  let d := b_pos - a_pos
  let p := (b_size + a_size).divQ 2 - d.absV
  if p.x < 0 ∨ p.y < 0 then none
  else if p.x < p.y then
    let sx : ℚ := if d.x < 0 then -1 else 1
    some ⟨⟨p.x * sx, 0⟩, ⟨sx, 0⟩, ⟨a_pos.x + sx * a_size.x / 2, b_pos.y⟩⟩
  else
    let sy : ℚ := if d.y < 0 then -1 else 1
    some ⟨⟨0, p.y * sy⟩, ⟨0, sy⟩, ⟨b_pos.x, a_pos.y + sy * a_size.y / 2⟩⟩

/-- `collisions::Sweep`. -/
structure Sweep where
  position : EVec2
  time : EFloat
  normal : Vec2
deriving DecidableEq, Repr

/-- `Rect::sweep_aabb`. -/
def Rect.sweep_aabb (a_pos a_size b_pos b_size delta : Vec2) : Option Sweep :=
  if delta = Vec2.zero then
    match Rect.inter_aabb b_pos b_size a_pos a_size with
    | some hit =>
        some ⟨EVec2.ofVec2 (a_pos - hit.delta), .fin 0, hit.normal⟩
    | none => none
  else
    match Ray.intersect_aabb a_pos delta b_pos (b_size + a_size) with
    | some hit =>
        some ⟨EVec2.add (EVec2.ofVec2 a_pos) (EVec2.smulE hit.toi delta.normalize),
          hit.toi, hit.normal⟩
    | none => none

/-- `constants::CollisionTypes`. -/
inductive CollisionTypes where
  | Player
  | Goal
  | Ground
deriving DecidableEq, Repr

/-- `collisions::CollisionData`. -/
inductive CollisionData where
  | Ray (r : RayIntersection)
  | Aabb (s : Sweep)
deriving DecidableEq, Repr

/-- `collisions::CollisionEvent<CollisionTypes>`. -/
structure CollisionEvent where
  entity : ℕ
  user_type : CollisionTypes
  data : CollisionData
deriving DecidableEq, Repr

/-! ## physics.rs / player.rs: per-entity state and systems -/

/-- The per-entity state touched by the physics and player systems:
`OnGround`, `Transform::translation` (2D part), `Velocity`,
`Acceleration`, `GravityDirection`, `JumpState`, `Gravity` (strength),
the child colliders (`Rect` sizes and `Ray` vectors) and the
`PositionDelta` component.  `rotQuarters` tracks `Transform::rotate_z`
in quarter turns. -/
structure PState where
  on_ground : Bool
  translation : EVec2
  velocity : Vec2
  acceleration : Vec2
  g_dir : Direction
  turned_this_jump : Bool
  last_h : Direction
  last_v : Direction
  gravity : ℚ
  rects : List Vec2
  rays : List Vec2
  delta_origin : EVec2
  delta_ray : EVec2
  rotQuarters : ℤ
deriving DecidableEq, Repr

/-- `physics::PhysicsSettings`. -/
structure Settings where
  initial_jump_speed : ℚ
  gravity_pressed : ℚ
  gravity_unpressed : ℚ
  horizontal_speed : ℚ
  max_speed : ℚ
deriving DecidableEq, Repr

/-- The four `MovementAction` buttons read by `control_movement`. -/
structure MoveInput where
  down : Bool
  up : Bool
  left : Bool
  right : Bool
deriving DecidableEq, Repr

/-- `physics::apply_gravity` for one entity. -/
def apply_gravity (s : PState) : PState :=
  if s.on_ground then
    { s with velocity := s.velocity * s.g_dir.forward.as_vec2.absV,
             acceleration := s.acceleration * s.g_dir.forward.as_vec2.absV }
  else
    { s with acceleration := s.acceleration + Vec2.smul s.gravity s.g_dir.as_vec2 }

/-- `physics::apply_acceleration` for one entity (`dt` is the fixed
time step). -/
def apply_acceleration (s : PState) (dt : ℚ) (st : Settings) : PState :=
  { s with velocity :=
      (s.velocity + Vec2.smul dt s.acceleration).clampSym st.max_speed }

/-- `physics::apply_velocity` for one entity. -/
def apply_velocity (s : PState) (dt : ℚ) : PState :=
  let last := s.translation
  let t' := EVec2.addV s.translation (Vec2.smul dt s.velocity)
  { s with translation := t', delta_origin := last,
           delta_ray := EVec2.sub t' last }

/-- `player::control_jump` for one entity.  On a just-pressed jump while
airborne the source returns early, skipping even the gravity-strength
update; on a jump while grounded it applies the jump impulse, clears
`on_ground` and resets `turned_this_jump`. -/
def control_jump (s : PState) (just_pressed pressed : Bool) (st : Settings) :
    PState :=
  if just_pressed && !s.on_ground then s
  else
    let s1 :=
      if just_pressed then
        let v' := s.velocity - Vec2.smul st.initial_jump_speed s.g_dir.as_vec2
        { s with velocity := v', on_ground := false, turned_this_jump := false }
      else s
    { s1 with gravity :=
        if pressed then st.gravity_pressed else st.gravity_unpressed }

/-- The velocity written by `control_movement`: the input buttons build a
direction, the forward (perpendicular-to-gravity) component is extracted,
and a non-zero forward input sets the forward speed while the gravity-axis
component of the velocity is kept. -/
def controlMovementVelocity (s : PState) (inp : MoveInput) (st : Settings) :
    Vec2 :=
  let temp : Vec2 :=
    ⟨(if inp.left then (-1 : ℚ) else 0) + (if inp.right then 1 else 0),
     (if inp.down then (-1 : ℚ) else 0) + (if inp.up then 1 else 0)⟩
  let val := s.g_dir.forward.as_vec2.dot temp
  if val ≠ 0 then
    s.velocity * s.g_dir.as_vec2.absV +
      Vec2.smul st.horizontal_speed
        (Vec2.smul val s.g_dir.forward.as_vec2).normalize
  else
    s.velocity * s.g_dir.as_vec2.absV

/-- `player::control_movement` for one entity: writes only the velocity. -/
def control_movement (s : PState) (inp : MoveInput) (st : Settings) : PState :=
  { s with velocity := controlMovementVelocity s inp st }

/-- The per-event test of `physics::falling_detection`: a buffered
`RayHit` tagged ground whose ray direction has angle zero with gravity. -/
def isGroundRayHit (g : Direction) (e : CollisionEvent) : Bool :=
  match e.data with
  | CollisionData.Ray r =>
      decide (e.user_type = CollisionTypes.Ground) &&
        r.ray_direction.angleZero g.as_vec2
  | CollisionData.Aabb _ => false

/-- `physics::falling_detection` for one entity with buffered events. -/
def falling_detection (s : PState) (buf : List CollisionEvent) : PState :=
  if !s.on_ground then s
  else if buf.any (isGroundRayHit s.g_dir) then s
  else { s with on_ground := false }

/-- One iteration of the scan loop of `physics::ground_detection`: keep
the first minimal-`time` ground `SweepHit` seen so far, and record whether
any ground `SweepHit` normal has angle zero with reversed gravity. -/
def groundScanStep (g : Direction) (acc : Option Sweep × Bool)
    (e : CollisionEvent) : Option Sweep × Bool :=
  match e.data with
  | CollisionData.Ray _ => acc
  | CollisionData.Aabb sw =>
      if e.user_type = CollisionTypes.Ground then
        let sel :=
          match acc.1 with
          | none => some sw
          | some c => if EFloat.blt sw.time c.time then some sw else some c
        (sel, acc.2 || sw.normal.angleZero g.reverse.as_vec2)
      else acc

/-- The scan loop of `physics::ground_detection` over the buffer. -/
def groundScan (g : Direction) (buf : List CollisionEvent) :
    Option Sweep × Bool :=
  buf.foldl (groundScanStep g) (none, false)

/-- The ground `SweepHit`s of a buffer, in buffer order. -/
def groundSweeps (buf : List CollisionEvent) : List Sweep :=
  buf.filterMap fun e =>
    match e.data with
    | CollisionData.Aabb sw =>
        if e.user_type = CollisionTypes.Ground then some sw else none
    | CollisionData.Ray _ => none

/-- Reference form of the selection loop, over the filtered sweeps. -/
def selMin : Option Sweep → List Sweep → Option Sweep
  | acc, [] => acc
  | none, sw :: rest => selMin (some sw) rest
  | some c, sw :: rest =>
      selMin (if EFloat.blt sw.time c.time then some sw else some c) rest

/-- `physics::ground_detection` for one entity with buffered events
(the entity is modelled with a `JumpState`, as the player is). -/
def ground_detection (s : PState) (buf : List CollisionEvent) : PState :=
  let scan := groundScan s.g_dir buf
  let s1 :=
    match scan.1 with
    | none => s
    | some c =>
        { s with
          translation := EVec2.addV c.position c.normal,
          velocity :=
            if 0 < s.velocity.dot c.normal.rot180 then
              s.velocity * c.normal.rot90.absV
            else s.velocity,
          acceleration :=
            if 0 < s.acceleration.dot c.normal.rot180 then
              s.acceleration * c.normal.rot90.absV
            else s.acceleration,
          turned_this_jump :=
            if Direction.from_vec2 c.normal = some s.g_dir then true
            else s.turned_this_jump }
  if scan.2 then { s1 with on_ground := true } else s1

/-- The vertical direction of current movement, per `rotate_gravity`:
along gravity if the velocity's gravity component is positive, against it
if negative, the previous tick's value if exactly zero. -/
def currentVDir (s : PState) : Direction :=
  let v_speed := s.g_dir.as_vec2.dot s.velocity
  if 0 < v_speed then s.g_dir
  else if v_speed < 0 then s.g_dir.reverse
  else s.last_v

/-- The horizontal direction of current movement, per `rotate_gravity`. -/
def currentHDir (s : PState) : Direction :=
  let h_speed := s.g_dir.forward.as_vec2.dot s.velocity
  if 0 < h_speed then s.g_dir.forward
  else if h_speed < 0 then s.g_dir.forward.reverse
  else s.last_h

/-- The state change applied when `rotate_gravity` fires: zero the
acceleration, mark the turn, rotate gravity cw or ccw, rotate the
transform, swap child box sizes and re-point child rays. -/
def applyRotation (s : PState) (current_h : Direction) : PState :=
  let newDir := if current_h = s.g_dir.forward then s.g_dir.cw else s.g_dir.ccw
  { s with
    acceleration := Vec2.zero,
    turned_this_jump := true,
    g_dir := newDir,
    rotQuarters :=
      s.rotQuarters + (if current_h = s.g_dir.forward then -1 else 1),
    rects := s.rects.map (fun r => ⟨r.y, r.x⟩),
    rays := s.rays.map (fun r => Vec2.smul r.length newDir.as_vec2) }

/-- `physics::rotate_gravity` for one entity (children colliders are the
`rects` and `rays` lists of the state). -/
def rotate_gravity (s : PState) : PState :=
  let current_v := currentVDir s
  let current_h := currentHDir s
  let s' :=
    if current_v ≠ s.last_v ∧ current_v = s.g_dir ∧ s.turned_this_jump = false
    then applyRotation s current_h
    else s
  { s' with last_h := current_h, last_v := current_v }

/-- One scheduler step on a single entity: any of the modelled systems,
with arbitrary external inputs (events, buttons, settings, time step). -/
inductive Step : PState → PState → Prop
  | jump (s : PState) (jp pr : Bool) (st : Settings) :
      Step s (control_jump s jp pr st)
  | move (s : PState) (inp : MoveInput) (st : Settings) :
      Step s (control_movement s inp st)
  | rotate (s : PState) : Step s (rotate_gravity s)
  | grav (s : PState) : Step s (apply_gravity s)
  | accel (s : PState) (dt : ℚ) (st : Settings) :
      Step s (apply_acceleration s dt st)
  | vel (s : PState) (dt : ℚ) : Step s (apply_velocity s dt)
  | falling (s : PState) (buf : List CollisionEvent) :
      Step s (falling_detection s buf)
  | ground (s : PState) (buf : List CollisionEvent) :
      Step s (ground_detection s buf)

/-- 1 when a step changed the gravity direction, else 0. -/
def rotCount (s t : PState) : ℕ := if s.g_dir = t.g_dir then 0 else 1

/-- A run of steps during which the entity stays airborne
(`on_ground = false` when each step fires), counting gravity rotations. -/
inductive AirSteps : PState → PState → ℕ → Prop
  | refl (s : PState) : AirSteps s s 0
  | step {s t u : PState} {n : ℕ} :
      s.on_ground = false → Step s t → AirSteps t u n →
      AirSteps s u (rotCount s t + n)

/-! ## Concrete states and buffers used in counterexamples and witnesses -/

/-- A default player-like state: airborne, at rest, gravity down
(`GravityDirection::default`, `JumpState::default`). -/
def baseState : PState :=
  { on_ground := false, translation := EVec2.zero, velocity := Vec2.zero,
    acceleration := Vec2.zero, g_dir := Direction.Down,
    turned_this_jump := false, last_h := Direction.Left,
    last_v := Direction.Down, gravity := 0, rects := [], rays := [],
    delta_origin := EVec2.zero, delta_ray := EVec2.zero, rotQuarters := 0 }

/-- Two ground sweeps: a later (time 1) floor contact whose normal opposes
gravity, then an earlier (time 0) wall contact with normal (1,0). -/
def c1Buf : List CollisionEvent :=
  [⟨0, CollisionTypes.Ground, CollisionData.Aabb ⟨EVec2.zero, .fin 1, ⟨0, 1⟩⟩⟩,
   ⟨1, CollisionTypes.Ground, CollisionData.Aabb ⟨EVec2.zero, .fin 0, ⟨1, 0⟩⟩⟩]

/-- Airborne, falling (velocity along gravity) after previously moving up:
`rotate_gravity` fires on this state. -/
def rotState : PState :=
  { baseState with velocity := ⟨0, -1⟩, last_v := Direction.Up }

/-- Grounded with `turned_this_jump` still true from the previous jump. -/
def landedTurnedState : PState :=
  { baseState with on_ground := true, turned_this_jump := true }

/-- Grounded state for the falling-detection counterexample. -/
def groundedState : PState := { baseState with on_ground := true }

/-- One ground `RayHit` whose ray direction (0,-2) points along gravity but
is not the unit gravity vector. -/
def c8Buf : List CollisionEvent :=
  [⟨0, CollisionTypes.Ground,
    CollisionData.Ray ⟨.fin 0, EVec2.zero, ⟨0, 1⟩, ⟨0, 0⟩, ⟨0, -2⟩⟩⟩]

/-- One ground sweep striking head-on against gravity: normal (0,-1) is the
gravity direction itself. -/
def c10Buf : List CollisionEvent :=
  [⟨0, CollisionTypes.Ground, CollisionData.Aabb ⟨EVec2.zero, .fin 0, ⟨0, -1⟩⟩⟩]

/-- Candidate with NaN time of impact. -/
def nanCand : RayIntersection := ⟨.nan, EVec2.zero, ⟨0, 1⟩, Vec2.zero, Vec2.zero⟩

/-- Candidate with finite time of impact. -/
def finCand : RayIntersection := ⟨.fin 2, EVec2.zero, ⟨1, 0⟩, Vec2.zero, Vec2.zero⟩

/-! ## Basic lemmas about the numeric model -/

theorem Vec2.add_def (a b : Vec2) : a + b = ⟨a.x + b.x, a.y + b.y⟩ := rfl

theorem Vec2.sub_def (a b : Vec2) : a - b = ⟨a.x - b.x, a.y - b.y⟩ := rfl

theorem Vec2.mul_def (a b : Vec2) : a * b = ⟨a.x * b.x, a.y * b.y⟩ := rfl

theorem Vec2.neg_def (a : Vec2) : -a = ⟨-a.x, -a.y⟩ := rfl

theorem EFloat.isNaN_eq {e : EFloat} : e.isNaN = true ↔ e = nan := by
  cases e <;> simp [isNaN]

theorem EFloat.blt_nan_left (e : EFloat) : EFloat.blt .nan e = false := by
  cases e <;> rfl

theorem EFloat.blt_nan_right (e : EFloat) : EFloat.blt e .nan = false := by
  cases e <;> rfl

theorem c_min_cases (a b : RayIntersection) : c_min a b = a ∨ c_min a b = b := by
  unfold c_min; split
  · exact Or.inl rfl
  · exact Or.inr rfl

theorem c_max_cases (a b : RayIntersection) : c_max a b = a ∨ c_max a b = b := by
  unfold c_max; split
  · exact Or.inl rfl
  · exact Or.inr rfl

theorem c_min_nan_left {a b : RayIntersection} (ha : a.toi.isNaN = true)
    (_hb : b.toi.isNaN = false) : c_min a b = b := by
  rw [EFloat.isNaN_eq] at ha
  unfold c_min
  rw [ha, EFloat.blt_nan_left]
  simp [EFloat.isNaN]

theorem c_min_nan_right {a b : RayIntersection} (ha : a.toi.isNaN = false)
    (hb : b.toi.isNaN = true) : c_min a b = a := by
  rw [EFloat.isNaN_eq] at hb
  unfold c_min
  rw [hb, EFloat.blt_nan_right, ha]
  simp [EFloat.isNaN]

theorem c_max_nan_left {a b : RayIntersection} (ha : a.toi.isNaN = true)
    (_hb : b.toi.isNaN = false) : c_max a b = b := by
  rw [EFloat.isNaN_eq] at ha
  unfold c_max
  rw [ha, EFloat.blt_nan_right]
  simp [EFloat.isNaN]

theorem c_max_nan_right {a b : RayIntersection} (ha : a.toi.isNaN = false)
    (hb : b.toi.isNaN = true) : c_max a b = a := by
  rw [EFloat.isNaN_eq] at hb
  unfold c_max
  rw [hb, EFloat.blt_nan_left, ha]
  simp [EFloat.isNaN]

theorem c_min_toi_nan {a b : RayIntersection}
    (h : (c_min a b).toi.isNaN = true) :
    a.toi.isNaN = true ∧ b.toi.isNaN = true := by
  cases ha : a.toi.isNaN <;> cases hb : b.toi.isNaN
  · rcases c_min_cases a b with hc | hc <;> rw [hc] at h <;> simp_all
  · rw [c_min_nan_right ha hb] at h; rw [h] at ha; cases ha
  · rw [c_min_nan_left ha hb] at h; rw [h] at hb; cases hb
  · exact ⟨rfl, rfl⟩

theorem c_max_toi_nan {a b : RayIntersection}
    (h : (c_max a b).toi.isNaN = true) :
    a.toi.isNaN = true ∧ b.toi.isNaN = true := by
  cases ha : a.toi.isNaN <;> cases hb : b.toi.isNaN
  · rcases c_max_cases a b with hc | hc <;> rw [hc] at h <;> simp_all
  · rw [c_max_nan_right ha hb] at h; rw [h] at ha; cases ha
  · rw [c_max_nan_left ha hb] at h; rw [h] at hb; cases hb
  · exact ⟨rfl, rfl⟩

/-- Claim C5: in the slab reduction, whenever exactly one of two axis
candidates has a NaN time of impact, both the toi-min reducer `c_min` and
the toi-max reducer `c_max` return the candidate whose time of impact is
not NaN. -/
theorem c5_nan_tiebreak (a b : RayIntersection)
    (h : a.toi.isNaN ≠ b.toi.isNaN) :
    (a.toi.isNaN = true → c_min a b = b ∧ c_max a b = b) ∧
    (b.toi.isNaN = true → c_min a b = a ∧ c_max a b = a) := by
  constructor
  · intro ha
    have hb : b.toi.isNaN = false := by
      cases hx : b.toi.isNaN
      · rfl
      · rw [ha, hx] at h; exact absurd rfl h
    exact ⟨c_min_nan_left ha hb, c_max_nan_left ha hb⟩
  · intro hb
    have ha : a.toi.isNaN = false := by
      cases hx : a.toi.isNaN
      · rfl
      · rw [hb, hx] at h; exact absurd rfl h
    exact ⟨c_min_nan_right ha hb, c_max_nan_right ha hb⟩

theorem c5_witness :
    nanCand.toi.isNaN ≠ finCand.toi.isNaN ∧
    ((nanCand.toi.isNaN = true →
        c_min nanCand finCand = finCand ∧ c_max nanCand finCand = finCand) ∧
     (finCand.toi.isNaN = true →
        c_min nanCand finCand = nanCand ∧ c_max nanCand finCand = nanCand)) :=
  ⟨by decide, c5_nan_tiebreak nanCand finCand (by decide)⟩

/-- Claim C7 counterexample: with box A centered at (0,0) of size (6,6) and
box B centered at (6,0) of size (4,4) the faces are one unit apart (the
half-size sum on x is 5 < 6), so `inter_aabb` returns none, not the
intersection the claim states. -/
theorem c7_counterexample :
    Rect.inter_aabb ⟨0, 0⟩ ⟨6, 6⟩ ⟨6, 0⟩ ⟨4, 4⟩ = none := by
  norm_num [Rect.inter_aabb, Vec2.divQ, Vec2.absV, Vec2.add_def, Vec2.sub_def]

/-- Claim C7 (amended): these boxes touch exactly at B center (5,0), and
there `inter_aabb` returns delta=(0,0), normal=(1,0), point=(3,0); at B
center (6,0) it returns none. -/
theorem c7_touching :
    Rect.inter_aabb ⟨0, 0⟩ ⟨6, 6⟩ ⟨5, 0⟩ ⟨4, 4⟩ =
      some ⟨⟨0, 0⟩, ⟨1, 0⟩, ⟨3, 0⟩⟩ ∧
    Rect.inter_aabb ⟨0, 0⟩ ⟨6, 6⟩ ⟨6, 0⟩ ⟨4, 4⟩ = none := by
  constructor <;>
    norm_num [Rect.inter_aabb, Vec2.divQ, Vec2.absV, Vec2.add_def, Vec2.sub_def]

/-! ## Square root, length and normalize facts -/

theorem isqrtGo_pos {n : ℕ} (hn : 1 ≤ n) : ∀ k, 1 ≤ k → 1 ≤ isqrtGo n k := by
  intro k
  induction k with
  | zero => intro h; omega
  | succ j ih =>
      intro _
      simp only [isqrtGo]
      split
      · omega
      · rcases Nat.eq_zero_or_pos j with hj | hj
        · subst hj; simp_all
        · exact ih hj

theorem isqrt_pos {n : ℕ} (hn : 1 ≤ n) : 1 ≤ isqrt n := isqrtGo_pos hn n hn

theorem ratSqrt_nonneg (q : ℚ) : 0 ≤ ratSqrt q := by
  unfold ratSqrt
  positivity

theorem ratSqrt_pos {q : ℚ} (hq : 0 < q) : 0 < ratSqrt q := by
  unfold ratSqrt
  apply div_pos
  · have h1 : 0 < q.num := Rat.num_pos.mpr hq
    have h2 : 1 ≤ q.num.toNat := by omega
    have h3 := isqrt_pos h2
    exact_mod_cast h3
  · have h2 : 1 ≤ q.den := q.den_pos
    have h3 := isqrt_pos h2
    exact_mod_cast h3

theorem Vec2.ne_zero_comp {v : Vec2} (h : v ≠ Vec2.zero) :
    v.x ≠ 0 ∨ v.y ≠ 0 := by
  by_contra hc
  push_neg at hc
  apply h
  cases v
  simp only [Vec2.zero, Vec2.mk.injEq]
  simp_all

theorem Vec2.lengthSq_pos {v : Vec2} (h : v ≠ Vec2.zero) : 0 < v.lengthSq := by
  unfold lengthSq
  rcases Vec2.ne_zero_comp h with hx | hy
  · have := mul_self_pos.mpr hx
    nlinarith [mul_self_nonneg v.y]
  · have := mul_self_pos.mpr hy
    nlinarith [mul_self_nonneg v.x]

theorem Vec2.length_pos {v : Vec2} (h : v ≠ Vec2.zero) : 0 < v.length :=
  ratSqrt_pos (Vec2.lengthSq_pos h)

theorem Vec2.length_nonneg (v : Vec2) : 0 ≤ v.length := ratSqrt_nonneg _

theorem Vec2.normalize_comp_ne {v : Vec2} (h : v ≠ Vec2.zero) :
    v.normalize.x ≠ 0 ∨ v.normalize.y ≠ 0 := by
  have hl := Vec2.length_pos h
  rcases Vec2.ne_zero_comp h with hx | hy
  · left
    exact div_ne_zero hx (ne_of_gt hl)
  · right
    exact div_ne_zero hy (ne_of_gt hl)

/-! ## NaN-freeness of the slab reduction for non-zero rays -/

theorem mulQ_recip_nan {q r : ℚ}
    (h : (EFloat.mulQ q (recipQ r)).isNaN = true) : r = 0 := by
  unfold recipQ at h
  split at h
  · assumption
  · simp [EFloat.mulQ, EFloat.isNaN] at h

theorem slabs_toi_not_nan {o ray c sz : Vec2} (h : ray ≠ Vec2.zero) :
    (slabs o ray c sz).1.toi.isNaN = false ∧
    (slabs o ray c sz).2.toi.isNaN = false := by
  constructor
  · cases hn : (slabs o ray c sz).1.toi.isNaN
    · rfl
    · exfalso
      have h1 := @c_max_toi_nan
        (c_min (slabLeft o ray c sz) (slabRight o ray c sz))
        (c_min (slabTop o ray c sz) (slabBottom o ray c sz)) hn
      have h2 := c_min_toi_nan h1.1
      have h3 := c_min_toi_nan h1.2
      have hx : ray.normalize.x = 0 := mulQ_recip_nan h2.1
      have hy : ray.normalize.y = 0 := mulQ_recip_nan h3.1
      rcases Vec2.normalize_comp_ne h with hc | hc <;> exact hc (by assumption)
  · cases hn : (slabs o ray c sz).2.toi.isNaN
    · rfl
    · exfalso
      have h1 := @c_min_toi_nan
        (c_max (slabLeft o ray c sz) (slabRight o ray c sz))
        (c_max (slabTop o ray c sz) (slabBottom o ray c sz)) hn
      have h2 := c_max_toi_nan h1.1
      have h3 := c_max_toi_nan h1.2
      have hx : ray.normalize.x = 0 := mulQ_recip_nan h2.1
      have hy : ray.normalize.y = 0 := mulQ_recip_nan h3.1
      rcases Vec2.normalize_comp_ne h with hc | hc <;> exact hc (by assumption)

/-! ## Claim C4: ray/box rejection rules -/

theorem intersect_aabb_def (o ray c sz : Vec2) :
    Ray.intersect_aabb o ray c sz =
      if EFloat.blt (slabs o ray c sz).2.toi (slabs o ray c sz).1.toi
          || (EFloat.blt (slabs o ray c sz).1.toi (.fin 0)
              && EFloat.blt (slabs o ray c sz).2.toi (.fin 0))
          || (EFloat.blt (slabs o ray c sz).1.toi (.fin 0)
              && EFloat.blt (.fin ray.length) (slabs o ray c sz).2.toi)
          || (EFloat.blt (.fin 0) (slabs o ray c sz).1.toi
              && EFloat.ble (.fin ray.length) (slabs o ray c sz).1.toi) then
        none
      else if EFloat.ble (.fin 0) (slabs o ray c sz).1.toi then
        some { (slabs o ray c sz).1 with
          point := EVec2.add (EVec2.ofVec2 o)
            (EVec2.smulE (slabs o ray c sz).1.toi ray.normalize) }
      else
        some { (slabs o ray c sz).2 with
          point := EVec2.add (EVec2.ofVec2 o)
            (EVec2.smulE (slabs o ray c sz).2.toi ray.normalize) } := rfl

/-- Claim C4: for a non-zero ray direction the intersector returns none
exactly when a rejection rule fires on the reduced slab pair: tmax.toi
below tmin.toi, both times negative, tmin.toi negative with tmax.toi past
the ray length, or tmin.toi positive with tmin.toi at or past the ray
length; otherwise it returns the hit built from tmin when tmin.toi is
nonnegative, else from tmax. -/
theorem c4_ray_box_rejection (o ray c sz : Vec2) (_hray : ray ≠ Vec2.zero) :
    (Ray.intersect_aabb o ray c sz = none ↔
      (EFloat.blt (slabs o ray c sz).2.toi (slabs o ray c sz).1.toi = true ∨
       (EFloat.blt (slabs o ray c sz).1.toi (.fin 0) = true ∧
         EFloat.blt (slabs o ray c sz).2.toi (.fin 0) = true) ∨
       (EFloat.blt (slabs o ray c sz).1.toi (.fin 0) = true ∧
         EFloat.blt (.fin ray.length) (slabs o ray c sz).2.toi = true) ∨
       (EFloat.blt (.fin 0) (slabs o ray c sz).1.toi = true ∧
         EFloat.ble (.fin ray.length) (slabs o ray c sz).1.toi = true))) ∧
    (∀ r, Ray.intersect_aabb o ray c sz = some r →
      if EFloat.ble (.fin 0) (slabs o ray c sz).1.toi = true then
        r = { (slabs o ray c sz).1 with
          point := EVec2.add (EVec2.ofVec2 o)
            (EVec2.smulE (slabs o ray c sz).1.toi ray.normalize) }
      else
        r = { (slabs o ray c sz).2 with
          point := EVec2.add (EVec2.ofVec2 o)
            (EVec2.smulE (slabs o ray c sz).2.toi ray.normalize) }) := by
  constructor
  · rw [intersect_aabb_def]
    by_cases hrej : (EFloat.blt (slabs o ray c sz).2.toi (slabs o ray c sz).1.toi
        || (EFloat.blt (slabs o ray c sz).1.toi (.fin 0)
            && EFloat.blt (slabs o ray c sz).2.toi (.fin 0))
        || (EFloat.blt (slabs o ray c sz).1.toi (.fin 0)
            && EFloat.blt (.fin ray.length) (slabs o ray c sz).2.toi)
        || (EFloat.blt (.fin 0) (slabs o ray c sz).1.toi
            && EFloat.ble (.fin ray.length) (slabs o ray c sz).1.toi)) = true
    · rw [if_pos hrej]
      constructor
      · intro _
        simpa [Bool.or_eq_true, Bool.and_eq_true, or_assoc] using hrej
      · intro _
        rfl
    · rw [if_neg hrej]
      constructor
      · intro hnone
        exfalso
        by_cases hble : EFloat.ble (.fin 0) (slabs o ray c sz).1.toi = true
        · rw [if_pos hble] at hnone
          exact Option.noConfusion hnone
        · rw [if_neg hble] at hnone
          exact Option.noConfusion hnone
      · intro hdisj
        exfalso
        apply hrej
        simpa [Bool.or_eq_true, Bool.and_eq_true, or_assoc] using hdisj
  · intro r hr
    rw [intersect_aabb_def] at hr
    by_cases hrej : (EFloat.blt (slabs o ray c sz).2.toi (slabs o ray c sz).1.toi
        || (EFloat.blt (slabs o ray c sz).1.toi (.fin 0)
            && EFloat.blt (slabs o ray c sz).2.toi (.fin 0))
        || (EFloat.blt (slabs o ray c sz).1.toi (.fin 0)
            && EFloat.blt (.fin ray.length) (slabs o ray c sz).2.toi)
        || (EFloat.blt (.fin 0) (slabs o ray c sz).1.toi
            && EFloat.ble (.fin ray.length) (slabs o ray c sz).1.toi)) = true
    · rw [if_pos hrej] at hr
      exact Option.noConfusion hr
    · rw [if_neg hrej] at hr
      by_cases hble : EFloat.ble (.fin 0) (slabs o ray c sz).1.toi = true
      · rw [if_pos hble] at hr
        rw [if_pos hble]
        injection hr with h
        exact h.symm
      · rw [if_neg hble] at hr
        rw [if_neg hble]
        injection hr with h
        exact h.symm

theorem c4_witness :
    Ray.intersect_aabb ⟨0, 0⟩ ⟨10, 0⟩ ⟨3, 0⟩ ⟨2, 2⟩ = none ↔
      (EFloat.blt (slabs ⟨0, 0⟩ ⟨10, 0⟩ ⟨3, 0⟩ ⟨2, 2⟩).2.toi
          (slabs ⟨0, 0⟩ ⟨10, 0⟩ ⟨3, 0⟩ ⟨2, 2⟩).1.toi = true ∨
       (EFloat.blt (slabs ⟨0, 0⟩ ⟨10, 0⟩ ⟨3, 0⟩ ⟨2, 2⟩).1.toi (.fin 0) = true ∧
         EFloat.blt (slabs ⟨0, 0⟩ ⟨10, 0⟩ ⟨3, 0⟩ ⟨2, 2⟩).2.toi (.fin 0) = true) ∨
       (EFloat.blt (slabs ⟨0, 0⟩ ⟨10, 0⟩ ⟨3, 0⟩ ⟨2, 2⟩).1.toi (.fin 0) = true ∧
         EFloat.blt (.fin (Vec2.length ⟨10, 0⟩))
           (slabs ⟨0, 0⟩ ⟨10, 0⟩ ⟨3, 0⟩ ⟨2, 2⟩).2.toi = true) ∨
       (EFloat.blt (.fin 0) (slabs ⟨0, 0⟩ ⟨10, 0⟩ ⟨3, 0⟩ ⟨2, 2⟩).1.toi = true ∧
         EFloat.ble (.fin (Vec2.length ⟨10, 0⟩))
           (slabs ⟨0, 0⟩ ⟨10, 0⟩ ⟨3, 0⟩ ⟨2, 2⟩).1.toi = true)) :=
  (c4_ray_box_rejection ⟨0, 0⟩ ⟨10, 0⟩ ⟨3, 0⟩ ⟨2, 2⟩ (by simp [Vec2.zero])).1

/-! ## Concrete evaluations shared by counterexamples and witnesses -/

theorem ratSqrt_100 : ratSqrt 100 = 10 := by
  have h1 : ((100 : ℚ)).num.toNat = 100 := by simp
  have h2 : ((100 : ℚ)).den = 1 := by simp
  rw [ratSqrt, h1, h2]
  rw [show isqrt 100 = 10 from by decide, show isqrt 1 = 1 from by decide]
  norm_num

theorem length_m10 : Vec2.length ⟨-10, 0⟩ = 10 := by
  have h : Vec2.lengthSq ⟨-10, 0⟩ = 100 := by
    unfold Vec2.lengthSq
    norm_num
  unfold Vec2.length
  rw [h, ratSqrt_100]

theorem normalize_m10 : Vec2.normalize ⟨-10, 0⟩ = ⟨-1, 0⟩ := by
  unfold Vec2.normalize
  rw [length_m10]
  unfold Vec2.divQ
  norm_num

theorem slabs_ex :
    slabs ⟨10, 0⟩ ⟨-10, 0⟩ ⟨0, 0⟩ ⟨10, 10⟩ =
      (⟨.fin 5, EVec2.zero, ⟨1, 0⟩, ⟨10, 0⟩, ⟨-10, 0⟩⟩,
       ⟨.fin 15, EVec2.zero, ⟨-1, 0⟩, ⟨10, 0⟩, ⟨-10, 0⟩⟩) := by
  unfold slabs slabLeft slabRight slabTop slabBottom
  rw [normalize_m10]
  norm_num [recipQ, EFloat.mulQ, Vec2.divQ, Vec2.add_def, Vec2.sub_def,
    Direction.as_vec2, c_min, c_max, EFloat.blt, EFloat.isNaN]

theorem intersect_ex :
    Ray.intersect_aabb ⟨10, 0⟩ ⟨-10, 0⟩ ⟨0, 0⟩ ⟨10, 10⟩ =
      some ⟨.fin 5, ⟨.fin 5, .fin 0⟩, ⟨1, 0⟩, ⟨10, 0⟩, ⟨-10, 0⟩⟩ := by
  rw [intersect_aabb_def, slabs_ex]
  norm_num [EFloat.blt, EFloat.ble, length_m10, EVec2.add, EVec2.ofVec2,
    EVec2.smulE, EFloat.mulQ, EFloat.add, normalize_m10]

/-- Spec concrete scenario 3: A of size (4,4) at (10,0) moving by (-10,0)
against B of size (6,6) at (0,0) first touches after travelling 5 units. -/
theorem sweep_ex :
    Rect.sweep_aabb ⟨10, 0⟩ ⟨4, 4⟩ ⟨0, 0⟩ ⟨6, 6⟩ ⟨-10, 0⟩ =
      some ⟨⟨.fin 5, .fin 0⟩, .fin 5, ⟨1, 0⟩⟩ := by
  unfold Rect.sweep_aabb
  rw [if_neg (by simp [Vec2.zero] : ¬(⟨-10, 0⟩ : Vec2) = Vec2.zero)]
  rw [show (⟨6, 6⟩ : Vec2) + ⟨4, 4⟩ = ⟨10, 10⟩ from by norm_num [Vec2.add_def]]
  rw [intersect_ex]
  norm_num [EVec2.add, EVec2.ofVec2, EVec2.smulE, EFloat.mulQ, EFloat.add,
    normalize_m10]

/-! ## Claim C9: all produced normals are cardinal unit vectors -/

theorem from_vec2_as_vec2 (d : Direction) :
    Direction.from_vec2 d.as_vec2 = some d := by
  cases d <;> norm_num [Direction.from_vec2, Direction.as_vec2, Vec2.mk.injEq]

theorem inter_aabb_normal {a_pos a_size b_pos b_size : Vec2}
    {i : AabbIntersection}
    (h : Rect.inter_aabb a_pos a_size b_pos b_size = some i) :
    ∃ d : Direction, i.normal = d.as_vec2 := by
  simp only [Rect.inter_aabb] at h
  split at h
  · exact Option.noConfusion h
  · split at h
    · injection h with h
      subst h
      by_cases hx : (b_pos - a_pos).x < 0
      · exact ⟨Direction.Left, by simp [hx, Direction.as_vec2]⟩
      · exact ⟨Direction.Right, by simp [hx, Direction.as_vec2]⟩
    · injection h with h
      subst h
      by_cases hy : (b_pos - a_pos).y < 0
      · exact ⟨Direction.Down, by simp [hy, Direction.as_vec2]⟩
      · exact ⟨Direction.Up, by simp [hy, Direction.as_vec2]⟩

theorem slabs_fst_normal (o ray c sz : Vec2) :
    ∃ d : Direction, (slabs o ray c sz).1.normal = d.as_vec2 := by
  have e : (slabs o ray c sz).1 =
      c_max (c_min (slabLeft o ray c sz) (slabRight o ray c sz))
        (c_min (slabTop o ray c sz) (slabBottom o ray c sz)) := rfl
  rw [e]
  rcases c_max_cases (c_min (slabLeft o ray c sz) (slabRight o ray c sz))
      (c_min (slabTop o ray c sz) (slabBottom o ray c sz)) with h | h <;> rw [h]
  · rcases c_min_cases (slabLeft o ray c sz) (slabRight o ray c sz)
        with h2 | h2 <;> rw [h2]
    · exact ⟨Direction.Left, rfl⟩
    · exact ⟨Direction.Right, rfl⟩
  · rcases c_min_cases (slabTop o ray c sz) (slabBottom o ray c sz)
        with h2 | h2 <;> rw [h2]
    · exact ⟨Direction.Up, rfl⟩
    · exact ⟨Direction.Down, rfl⟩

theorem slabs_snd_normal (o ray c sz : Vec2) :
    ∃ d : Direction, (slabs o ray c sz).2.normal = d.as_vec2 := by
  have e : (slabs o ray c sz).2 =
      c_min (c_max (slabLeft o ray c sz) (slabRight o ray c sz))
        (c_max (slabTop o ray c sz) (slabBottom o ray c sz)) := rfl
  rw [e]
  rcases c_min_cases (c_max (slabLeft o ray c sz) (slabRight o ray c sz))
      (c_max (slabTop o ray c sz) (slabBottom o ray c sz)) with h | h <;> rw [h]
  · rcases c_max_cases (slabLeft o ray c sz) (slabRight o ray c sz)
        with h2 | h2 <;> rw [h2]
    · exact ⟨Direction.Left, rfl⟩
    · exact ⟨Direction.Right, rfl⟩
  · rcases c_max_cases (slabTop o ray c sz) (slabBottom o ray c sz)
        with h2 | h2 <;> rw [h2]
    · exact ⟨Direction.Up, rfl⟩
    · exact ⟨Direction.Down, rfl⟩

theorem intersect_aabb_normal {o ray c sz : Vec2} {r : RayIntersection}
    (h : Ray.intersect_aabb o ray c sz = some r) :
    ∃ d : Direction, r.normal = d.as_vec2 := by
  rw [intersect_aabb_def] at h
  split at h
  · exact Option.noConfusion h
  · split at h
    · injection h with h
      subst h
      exact slabs_fst_normal o ray c sz
    · injection h with h
      subst h
      exact slabs_snd_normal o ray c sz

/-- Claim C9: every collision normal produced by the static box/box
intersector and by the ray/box intersector (hence also by the swept box
test composed from them) is one of the four unit cardinal vectors, so the
conversion `Direction::from_vec2(normal).unwrap()` performed by
`ground_detection` on a winning sweep normal always succeeds. -/
theorem c9_cardinal_normals :
    (∀ a_pos a_size b_pos b_size i,
        Rect.inter_aabb a_pos a_size b_pos b_size = some i →
        (Direction.from_vec2 i.normal).isSome = true) ∧
    (∀ o ray c sz r,
        Ray.intersect_aabb o ray c sz = some r →
        (Direction.from_vec2 r.normal).isSome = true) ∧
    (∀ a_pos a_size b_pos b_size delta s,
        Rect.sweep_aabb a_pos a_size b_pos b_size delta = some s →
        (Direction.from_vec2 s.normal).isSome = true) := by
  refine ⟨?_, ?_, ?_⟩
  · intro a_pos a_size b_pos b_size i h
    rcases inter_aabb_normal h with ⟨d, hd⟩
    rw [hd, from_vec2_as_vec2]
    rfl
  · intro o ray c sz r h
    rcases intersect_aabb_normal h with ⟨d, hd⟩
    rw [hd, from_vec2_as_vec2]
    rfl
  · intro a_pos a_size b_pos b_size delta s h
    unfold Rect.sweep_aabb at h
    split at h
    · cases hm : Rect.inter_aabb b_pos b_size a_pos a_size with
      | none => rw [hm] at h; exact Option.noConfusion h
      | some hit =>
          rw [hm] at h
          injection h with h
          subst h
          rcases inter_aabb_normal hm with ⟨d, hd⟩
          show (Direction.from_vec2 hit.normal).isSome = true
          rw [hd, from_vec2_as_vec2]
          rfl
    · cases hm : Ray.intersect_aabb a_pos delta b_pos (b_size + a_size) with
      | none => rw [hm] at h; exact Option.noConfusion h
      | some hit =>
          rw [hm] at h
          injection h with h
          subst h
          rcases intersect_aabb_normal hm with ⟨d, hd⟩
          show (Direction.from_vec2 hit.normal).isSome = true
          rw [hd, from_vec2_as_vec2]
          rfl

theorem c9_witness :
    (Direction.from_vec2
      (Sweep.normal ⟨⟨.fin 5, .fin 0⟩, .fin 5, ⟨1, 0⟩⟩)).isSome = true :=
  c9_cardinal_normals.2.2 ⟨10, 0⟩ ⟨4, 4⟩ ⟨0, 0⟩ ⟨6, 6⟩ ⟨-10, 0⟩ _ sweep_ex

/-! ## Claim C2: sweep time semantics -/

theorem intersect_toi_bounds {o ray c sz : Vec2} {r : RayIntersection}
    (hray : ray ≠ Vec2.zero) (h : Ray.intersect_aabb o ray c sz = some r) :
    ∃ q : ℚ, r.toi = .fin q ∧ 0 ≤ q ∧ q ≤ ray.length := by
  have hnn := @slabs_toi_not_nan o ray c sz hray
  rw [intersect_aabb_def] at h
  split at h
  · exact Option.noConfusion h
  case isFalse hrej =>
    simp only [Bool.or_eq_true, Bool.and_eq_true, not_or] at hrej
    obtain ⟨⟨⟨h1, h2⟩, h3⟩, h4⟩ := hrej
    split at h
    case isTrue hble =>
      injection h with h
      subst h
      cases hT : (slabs o ray c sz).1.toi with
      | nan => rw [hT] at hble; cases hble
      | ninf => rw [hT] at hble; cases hble
      | pinf =>
          exfalso
          apply h4
          rw [hT]
          exact ⟨rfl, rfl⟩
      | fin q =>
          refine ⟨q, rfl, ?_, ?_⟩
          · rw [hT] at hble
            simpa [EFloat.ble] using hble
          · rw [hT] at h4 hble
            have hq0 : 0 ≤ q := by simpa [EFloat.ble] using hble
            by_cases hq : 0 < q
            · by_cases hL : ray.length ≤ q
              · exact absurd ⟨by simpa [EFloat.blt] using hq,
                  by simpa [EFloat.ble] using hL⟩ h4
              · linarith [not_le.mp hL]
            · have h0 : q = 0 := le_antisymm (not_lt.mp hq) hq0
              rw [h0]
              exact Vec2.length_nonneg ray
    case isFalse hble =>
      injection h with h
      subst h
      have hTnan := hnn.1
      have hUnan := hnn.2
      have hTneg : EFloat.blt (slabs o ray c sz).1.toi (.fin 0) = true := by
        cases hT : (slabs o ray c sz).1.toi with
        | nan => rw [hT] at hTnan; simp [EFloat.isNaN] at hTnan
        | pinf => rw [hT] at hble; exact absurd rfl hble
        | ninf => rfl
        | fin q =>
            rw [hT] at hble
            simp only [EFloat.ble, decide_eq_true_eq] at hble
            simp only [EFloat.blt, decide_eq_true_eq]
            linarith [not_le.mp hble]
      cases hU : (slabs o ray c sz).2.toi with
      | nan => rw [hU] at hUnan; simp [EFloat.isNaN] at hUnan
      | ninf =>
          exfalso
          apply h2
          rw [hU]
          exact ⟨hTneg, rfl⟩
      | pinf =>
          exfalso
          apply h3
          rw [hU]
          exact ⟨hTneg, rfl⟩
      | fin u =>
          refine ⟨u, rfl, ?_, ?_⟩
          · by_contra hu
            apply h2
            rw [hU]
            refine ⟨hTneg, ?_⟩
            simp only [EFloat.blt, decide_eq_true_eq]
            linarith [not_le.mp hu]
          · by_contra hu
            apply h3
            rw [hU]
            refine ⟨hTneg, ?_⟩
            simp only [EFloat.blt, decide_eq_true_eq]
            linarith [not_le.mp hu]

/-- Claim C2 counterexample: spec scenario 3 (A of size (4,4) at (10,0)
moving by delta (-10,0) into B of size (6,6) at (0,0)) reports time 5,
which exceeds 1 although contact occurs within the requested motion, and
the displacement travelled, (-5,0), differs from time * delta = (-50,0):
the reported time is not the fraction of the requested motion. -/
theorem c2_counterexample :
    Rect.sweep_aabb ⟨10, 0⟩ ⟨4, 4⟩ ⟨0, 0⟩ ⟨6, 6⟩ ⟨-10, 0⟩ =
      some ⟨⟨.fin 5, .fin 0⟩, .fin 5, ⟨1, 0⟩⟩ ∧
    EFloat.ble (.fin 5) (.fin 1) = false ∧
    EVec2.sub ⟨.fin 5, .fin 0⟩ (EVec2.ofVec2 ⟨10, 0⟩) ≠
      EVec2.smulE (.fin 5) ⟨-10, 0⟩ := by
  refine ⟨sweep_ex, by norm_num [EFloat.ble], ?_⟩
  norm_num [EVec2.sub, EVec2.add, EVec2.ofVec2, EFloat.neg, EFloat.add,
    EVec2.smulE, EFloat.mulQ, EVec2.mk.injEq, EFloat.fin.injEq]

/-- Claim C2 (amended): for every call with a non-zero delta that reports a
hit, the reported time is the distance travelled before contact, in the
units of delta's length (the fraction of the requested motion is
time / |delta|, not time): it is a finite value with 0 ≤ time ≤ |delta|,
0 at already-touching, and the position equals
a_pos + time * normalize(delta). -/
theorem c2_sweep_time_distance (a_pos a_size b_pos b_size delta : Vec2)
    (hd : delta ≠ Vec2.zero) (s : Sweep)
    (hs : Rect.sweep_aabb a_pos a_size b_pos b_size delta = some s) :
    s.position =
      EVec2.add (EVec2.ofVec2 a_pos) (EVec2.smulE s.time delta.normalize) ∧
    ∃ q : ℚ, s.time = .fin q ∧ 0 ≤ q ∧ q ≤ delta.length := by
  unfold Rect.sweep_aabb at hs
  rw [if_neg hd] at hs
  cases hm : Ray.intersect_aabb a_pos delta b_pos (b_size + a_size) with
  | none => rw [hm] at hs; exact Option.noConfusion hs
  | some hit =>
      rw [hm] at hs
      injection hs with hs
      subst hs
      exact ⟨rfl, intersect_toi_bounds hd hm⟩

theorem c2_witness :
    (⟨⟨.fin 5, .fin 0⟩, .fin 5, ⟨1, 0⟩⟩ : Sweep).position =
      EVec2.add (EVec2.ofVec2 ⟨10, 0⟩)
        (EVec2.smulE (Sweep.time ⟨⟨.fin 5, .fin 0⟩, .fin 5, ⟨1, 0⟩⟩)
          (Vec2.normalize ⟨-10, 0⟩)) ∧
    ∃ q : ℚ, (⟨⟨.fin 5, .fin 0⟩, .fin 5, ⟨1, 0⟩⟩ : Sweep).time = .fin q ∧
      0 ≤ q ∧ q ≤ Vec2.length ⟨-10, 0⟩ :=
  c2_sweep_time_distance ⟨10, 0⟩ ⟨4, 4⟩ ⟨0, 0⟩ ⟨6, 6⟩ ⟨-10, 0⟩
    (by simp [Vec2.zero]) _ sweep_ex

/-! ## Claim C6: zero-delta sweep -/

/-- Claim C6 counterexample: with delta exactly zero and exactly adjacent
boxes (A of size (2,2) at (0,0), B of size (2,2) at (2,0), faces touching
at x = 1), the sweep reports a zero-time hit instead of the claimed "no
collision": the static overlap test counts zero-penetration touching as
an overlap (its rejection tests are strict). -/
theorem c6_counterexample :
    Rect.sweep_aabb ⟨0, 0⟩ ⟨2, 2⟩ ⟨2, 0⟩ ⟨2, 2⟩ ⟨0, 0⟩ =
      some ⟨EVec2.ofVec2 ⟨0, 0⟩, .fin 0, ⟨-1, 0⟩⟩ := by
  unfold Rect.sweep_aabb
  rw [if_pos (show (⟨0, 0⟩ : Vec2) = Vec2.zero from rfl)]
  rw [show Rect.inter_aabb ⟨2, 0⟩ ⟨2, 2⟩ ⟨0, 0⟩ ⟨2, 2⟩ =
      some ⟨⟨0, 0⟩, ⟨-1, 0⟩, ⟨1, 0⟩⟩ from by
    norm_num [Rect.inter_aabb, Vec2.divQ, Vec2.absV, Vec2.add_def,
      Vec2.sub_def]]
  norm_num [EVec2.ofVec2, Vec2.sub_def]

/-- Claim C6 (amended): with delta exactly the zero vector the sweep falls
back to the static test `inter_aabb(b_pos, b_size, a_pos, a_size)` (B
tested against A, so delta/normal are that call's fields): if it reports
an intersection h — which includes exactly-adjacent boxes, reported with
zero penetration — the result is Sweep{position = a_pos - h.delta,
time = 0, normal = h.normal}; if it reports none (strict separation on
some axis) the result is no collision. -/
theorem c6_zero_delta (a_pos a_size b_pos b_size : Vec2) :
    (Rect.inter_aabb b_pos b_size a_pos a_size = none →
      Rect.sweep_aabb a_pos a_size b_pos b_size ⟨0, 0⟩ = none) ∧
    (∀ h, Rect.inter_aabb b_pos b_size a_pos a_size = some h →
      Rect.sweep_aabb a_pos a_size b_pos b_size ⟨0, 0⟩ =
        some ⟨EVec2.ofVec2 (a_pos - h.delta), .fin 0, h.normal⟩) := by
  constructor
  · intro hm
    unfold Rect.sweep_aabb
    rw [if_pos (show (⟨0, 0⟩ : Vec2) = Vec2.zero from rfl), hm]
  · intro h hm
    unfold Rect.sweep_aabb
    rw [if_pos (show (⟨0, 0⟩ : Vec2) = Vec2.zero from rfl), hm]

theorem c6_witness :
    Rect.sweep_aabb ⟨0, 3⟩ ⟨4, 4⟩ ⟨0, 0⟩ ⟨6, 6⟩ ⟨0, 0⟩ =
      some ⟨EVec2.ofVec2 ((⟨0, 3⟩ : Vec2) -
        AabbIntersection.delta ⟨⟨0, 2⟩, ⟨0, 1⟩, ⟨0, 3⟩⟩), .fin 0, ⟨0, 1⟩⟩ :=
  (c6_zero_delta ⟨0, 3⟩ ⟨4, 4⟩ ⟨0, 0⟩ ⟨6, 6⟩).2 ⟨⟨0, 2⟩, ⟨0, 1⟩, ⟨0, 3⟩⟩
    (by norm_num [Rect.inter_aabb, Vec2.divQ, Vec2.absV, Vec2.add_def,
      Vec2.sub_def])

/-! ## Claim C8: falling detection -/

/-- Claim C8 counterexample: a grounded entity whose buffer holds one
ground RayHit with ray direction (0,-2) — pointing along gravity Down but
not equal to the unit gravity vector (0,-1) — keeps on_ground, because
the code compares by angle_between == 0 (any positive multiple of the
gravity vector), not by exact vector equality as the claim states. -/
theorem c8_counterexample :
    (falling_detection groundedState c8Buf).on_ground = true ∧
    (∀ e ∈ c8Buf, ∀ r, e.data = CollisionData.Ray r →
      r.ray_direction ≠ groundedState.g_dir.as_vec2) := by
  constructor
  · norm_num [falling_detection, groundedState, baseState, c8Buf,
      isGroundRayHit, Vec2.angleZero, Vec2.perpDot, Vec2.dot,
      Direction.as_vec2, List.any]
  · intro e he r hr
    simp only [c8Buf, List.mem_singleton] at he
    subst he
    injection hr with hr
    subst hr
    norm_num [groundedState, baseState, Direction.as_vec2, Vec2.mk.injEq]

/-- Claim C8 (amended): for every entity the falling-detection pass leaves
non-grounded states unchanged, and clears on_ground of a grounded state
precisely when no buffered RayHit event on the entity is tagged ground
with ray direction at angle zero with the current gravity direction
(pointing the same way as gravity — any positive multiple of the gravity
vector, not only the exact unit vector). -/
theorem c8_falling_detection (s : PState) (buf : List CollisionEvent) :
    (s.on_ground = true →
      ((falling_detection s buf).on_ground = false ↔
        ∀ e ∈ buf, isGroundRayHit s.g_dir e = false)) ∧
    (s.on_ground = false → falling_detection s buf = s) := by
  constructor
  · intro hg
    by_cases hany : buf.any (isGroundRayHit s.g_dir) = true
    · have hres : falling_detection s buf = s := by
        unfold falling_detection
        rw [hg, hany]
        simp
      rw [hres, hg]
      constructor
      · intro hc
        exact absurd hc (by simp)
      · intro hall
        exfalso
        rw [List.any_eq_true] at hany
        rcases hany with ⟨e, he, hpe⟩
        rw [hall e he] at hpe
        cases hpe
    · have hany' : buf.any (isGroundRayHit s.g_dir) = false := by
        simpa using hany
      have hres : falling_detection s buf = { s with on_ground := false } := by
        unfold falling_detection
        rw [hg, hany']
        simp
      rw [hres]
      constructor
      · intro _
        intro e he
        cases hpe : isGroundRayHit s.g_dir e
        · rfl
        · exfalso
          have hT : buf.any (isGroundRayHit s.g_dir) = true :=
            List.any_eq_true.mpr ⟨e, he, hpe⟩
          rw [hT] at hany'
          cases hany'
      · intro _
        rfl
  · intro hg
    unfold falling_detection
    rw [hg]
    rfl

theorem c8_witness :
    (falling_detection groundedState []).on_ground = false ↔
      ∀ e ∈ ([] : List CollisionEvent),
        isGroundRayHit groundedState.g_dir e = false :=
  (c8_falling_detection groundedState []).1 rfl

/-! ## Claim C1: ground contact selection -/

theorem blt_fin_true_iff {a b : ℚ} :
    EFloat.blt (.fin a) (.fin b) = true ↔ a < b := by
  simp [EFloat.blt]

theorem blt_fin_false_iff {a b : ℚ} :
    EFloat.blt (.fin a) (.fin b) = false ↔ b ≤ a := by
  simp [EFloat.blt]

theorem selMin_spec :
    ∀ (l : List Sweep) (c : Sweep),
      (∀ u ∈ l, ∃ q, u.time = EFloat.fin q) →
      (∃ q, c.time = EFloat.fin q) →
      ∃ w pre post,
        selMin (some c) l = some w ∧
        (∃ q, w.time = EFloat.fin q) ∧
        c :: l = pre ++ w :: post ∧
        (∀ u ∈ pre, EFloat.blt w.time u.time = true) ∧
        (∀ u ∈ post, EFloat.blt u.time w.time = false) := by
  intro l
  induction l with
  | nil =>
      intro c _ hc
      refine ⟨c, [], [], rfl, hc, rfl, ?_, ?_⟩
      · intro u hu
        cases hu
      · intro u hu
        cases hu
  | cons sw rest ih =>
      intro c hl hc
      have hsw : ∃ q, sw.time = EFloat.fin q := hl sw (List.mem_cons_self _ _)
      have hrest : ∀ u ∈ rest, ∃ q, u.time = EFloat.fin q :=
        fun u hu => hl u (List.mem_cons_of_mem _ hu)
      by_cases hlt : EFloat.blt sw.time c.time = true
      · have hstep : selMin (some c) (sw :: rest) = selMin (some sw) rest := by
          simp [selMin, hlt]
        rcases ih sw hrest hsw with ⟨w, pre, post, hsel, hwfin, hdec, hpre, hpost⟩
        have hwc : EFloat.blt w.time c.time = true := by
          rcases hwfin with ⟨qw, hqw⟩
          rcases hsw with ⟨qs, hqs⟩
          rcases hc with ⟨qc, hqc⟩
          cases pre with
          | nil =>
              simp only [List.nil_append] at hdec
              injection hdec with h1 h2
              rw [← h1]
              exact hlt
          | cons p pre' =>
              simp only [List.cons_append] at hdec
              injection hdec with h1 h2
              have hws : EFloat.blt w.time sw.time = true := by
                rw [h1]
                exact hpre p (List.mem_cons_self _ _)
              rw [hqw, hqs] at hws
              rw [hqs, hqc] at hlt
              rw [hqw, hqc]
              exact blt_fin_true_iff.mpr
                (lt_trans (blt_fin_true_iff.mp hws) (blt_fin_true_iff.mp hlt))
        refine ⟨w, c :: pre, post, ?_, hwfin, ?_, ?_, hpost⟩
        · rw [hstep]
          exact hsel
        · simp only [List.cons_append]
          rw [hdec]
        · intro u hu
          rcases List.mem_cons.mp hu with h | h
          · subst h
            exact hwc
          · exact hpre u h
      · have hlt' : EFloat.blt sw.time c.time = false := by
          simpa using hlt
        have hstep : selMin (some c) (sw :: rest) = selMin (some c) rest := by
          simp [selMin, hlt']
        rcases ih c hrest hc with ⟨w, pre, post, hsel, hwfin, hdec, hpre, hpost⟩
        cases pre with
        | nil =>
            simp only [List.nil_append] at hdec
            injection hdec with h1 h2
            refine ⟨w, [], sw :: post, ?_, hwfin, ?_, ?_, ?_⟩
            · rw [hstep]
              exact hsel
            · simp only [List.nil_append]
              rw [← h1, ← h2]
            · intro u hu
              cases hu
            · intro u hu
              rcases List.mem_cons.mp hu with h | h
              · subst h
                rw [← h1]
                exact hlt'
              · exact hpost u h
        | cons p pre' =>
            simp only [List.cons_append] at hdec
            injection hdec with h1 h2
            have hwc : EFloat.blt w.time c.time = true := by
              rw [h1]
              exact hpre p (List.mem_cons_self _ _)
            have hwsw : EFloat.blt w.time sw.time = true := by
              rcases hwfin with ⟨qw, hqw⟩
              rcases hsw with ⟨qs, hqs⟩
              rcases hc with ⟨qc, hqc⟩
              rw [hqw, hqc] at hwc
              rw [hqs, hqc] at hlt'
              rw [hqw, hqs]
              exact blt_fin_true_iff.mpr
                (lt_of_lt_of_le (blt_fin_true_iff.mp hwc)
                  (blt_fin_false_iff.mp hlt'))
            refine ⟨w, c :: sw :: pre', post, ?_, hwfin, ?_, ?_, hpost⟩
            · rw [hstep]
              exact hsel
            · simp only [List.cons_append]
              rw [h2]
            · intro u hu
              rcases List.mem_cons.mp hu with h | h
              · subst h
                exact hwc
              · rcases List.mem_cons.mp h with h' | h'
                · subst h'
                  exact hwsw
                · exact hpre u (List.mem_cons_of_mem p h')

theorem groundScan_aux (g : Direction) :
    ∀ (buf : List CollisionEvent) (acc : Option Sweep × Bool),
      List.foldl (groundScanStep g) acc buf =
        (selMin acc.1 (groundSweeps buf),
         acc.2 || (groundSweeps buf).any
           (fun sw => sw.normal.angleZero g.reverse.as_vec2)) := by
  intro buf
  induction buf with
  | nil =>
      intro acc
      cases acc
      simp [groundSweeps, selMin]
  | cons e rest ih =>
      intro acc
      rw [List.foldl_cons]
      cases hdata : e.data with
      | Ray r =>
          have hstep : groundScanStep g acc e = acc := by
            unfold groundScanStep
            rw [hdata]
          have hgs : groundSweeps (e :: rest) = groundSweeps rest := by
            unfold groundSweeps
            rw [List.filterMap_cons]
            simp [hdata]
          rw [hstep, hgs, ih]
      | Aabb sw =>
          by_cases htag : e.user_type = CollisionTypes.Ground
          · have hgs : groundSweeps (e :: rest) = sw :: groundSweeps rest := by
              unfold groundSweeps
              rw [List.filterMap_cons]
              simp [hdata, htag]
            have hstep : groundScanStep g acc e =
                ((match acc.1 with
                  | none => some sw
                  | some c =>
                      if EFloat.blt sw.time c.time then some sw else some c),
                 acc.2 || sw.normal.angleZero g.reverse.as_vec2) := by
              unfold groundScanStep
              rw [hdata]
              simp [htag]
            rw [hstep, ih, hgs]
            cases hacc : acc.1 with
            | none => simp [selMin, List.any_cons, Bool.or_assoc]
            | some c => simp [selMin, List.any_cons, Bool.or_assoc]
          · have hgs : groundSweeps (e :: rest) = groundSweeps rest := by
              unfold groundSweeps
              rw [List.filterMap_cons]
              simp [hdata, htag]
            have hstep : groundScanStep g acc e = acc := by
              unfold groundScanStep
              rw [hdata]
              simp [htag]
            rw [hstep, hgs, ih]

theorem groundScan_eq (g : Direction) (buf : List CollisionEvent) :
    groundScan g buf =
      (selMin none (groundSweeps buf),
       (groundSweeps buf).any
         (fun sw => sw.normal.angleZero g.reverse.as_vec2)) := by
  unfold groundScan
  rw [groundScan_aux]
  simp

theorem ground_detection_on_ground (s : PState) (buf : List CollisionEvent) :
    (ground_detection s buf).on_ground =
      (s.on_ground || (groundScan s.g_dir buf).2) := by
  unfold ground_detection
  cases h1 : (groundScan s.g_dir buf).1 <;>
    cases h2 : (groundScan s.g_dir buf).2 <;>
      simp [h1, h2]

theorem ground_detection_g_dir (s : PState) (buf : List CollisionEvent) :
    (ground_detection s buf).g_dir = s.g_dir := by
  unfold ground_detection
  cases h1 : (groundScan s.g_dir buf).1 <;>
    cases h2 : (groundScan s.g_dir buf).2 <;>
      simp [h1, h2]

/-- Claim C1 counterexample: with gravity Down and two buffered ground
sweeps — first a time-1 floor contact with normal (0,1) opposing gravity,
then a time-0 wall contact with normal (1,0) — the selected minimal-time
event is the wall contact, whose normal is not the reverse of gravity,
yet on_ground is still set: the grounded flag depends on any ground sweep
normal opposing gravity, not on the selected event's normal. -/
theorem c1_counterexample :
    (groundScan baseState.g_dir c1Buf).1 =
      some ⟨EVec2.zero, .fin 0, ⟨1, 0⟩⟩ ∧
    (⟨1, 0⟩ : Vec2) ≠ baseState.g_dir.reverse.as_vec2 ∧
    baseState.on_ground = false ∧
    (ground_detection baseState c1Buf).on_ground = true := by
  have hsel : (groundScan baseState.g_dir c1Buf).1 =
      some ⟨EVec2.zero, .fin 0, ⟨1, 0⟩⟩ := by
    norm_num [groundScan, c1Buf, groundScanStep, List.foldl, EFloat.blt,
      baseState]
  refine ⟨hsel, ?_, rfl, ?_⟩
  · norm_num [baseState, Direction.reverse, Direction.as_vec2, Vec2.mk.injEq]
  · rw [ground_detection_on_ground]
    have h2 : (groundScan baseState.g_dir c1Buf).2 = true := by
      norm_num [groundScan, c1Buf, groundScanStep, List.foldl, EFloat.blt,
        Vec2.angleZero, Vec2.perpDot, Vec2.dot, Direction.reverse,
        Direction.as_vec2, baseState]
    rw [h2]
    simp

/-- Claim C1 (amended): among buffered SweepHit events tagged ground the
scan selects the first event attaining the minimal time (strictly smaller
than every earlier ground sweep's time, no later one strictly smaller),
and the pass sets on_ground precisely when at least one buffered ground
SweepHit's normal — not necessarily the selected one's — has angle zero
with the reverse of gravity (on_ground is never cleared by this pass). -/
theorem c1_ground_selection (s : PState) (buf : List CollisionEvent)
    (hfin : ∀ u ∈ groundSweeps buf, ∃ q, u.time = EFloat.fin q) :
    ((groundScan s.g_dir buf).1 = none ↔ groundSweeps buf = []) ∧
    (∀ w, (groundScan s.g_dir buf).1 = some w →
      ∃ pre post, groundSweeps buf = pre ++ w :: post ∧
        (∀ u ∈ pre, EFloat.blt w.time u.time = true) ∧
        (∀ u ∈ post, EFloat.blt u.time w.time = false)) ∧
    ((ground_detection s buf).on_ground =
      (s.on_ground || (groundSweeps buf).any
        (fun sw => sw.normal.angleZero s.g_dir.reverse.as_vec2))) := by
  have h1 : (groundScan s.g_dir buf).1 = selMin none (groundSweeps buf) := by
    rw [groundScan_eq]
  have h2 : (groundScan s.g_dir buf).2 =
      (groundSweeps buf).any
        (fun sw => sw.normal.angleZero s.g_dir.reverse.as_vec2) := by
    rw [groundScan_eq]
  refine ⟨?_, ?_, ?_⟩
  · rw [h1]
    cases hgs : groundSweeps buf with
    | nil => simp [selMin]
    | cons x l =>
        constructor
        · intro hnone
          rcases selMin_spec l x
              (fun u hu => hfin u (by rw [hgs]; exact List.mem_cons_of_mem _ hu))
              (hfin x (by rw [hgs]; exact List.mem_cons_self _ _)) with
            ⟨w, pre, post, hsel, _, _, _, _⟩
          rw [show selMin none (x :: l) = selMin (some x) l from rfl,
            hsel] at hnone
          cases hnone
        · intro h
          cases h
  · intro w hw
    rw [h1] at hw
    cases hgs : groundSweeps buf with
    | nil =>
        rw [hgs] at hw
        cases hw
    | cons x l =>
        rw [hgs] at hw
        rw [show selMin none (x :: l) = selMin (some x) l from rfl] at hw
        rcases selMin_spec l x
            (fun u hu => hfin u (by rw [hgs]; exact List.mem_cons_of_mem _ hu))
            (hfin x (by rw [hgs]; exact List.mem_cons_self _ _)) with
          ⟨w', pre, post, hsel, _, hdec, hpre, hpost⟩
        rw [hsel] at hw
        injection hw with hw
        subst hw
        exact ⟨pre, post, hdec, hpre, hpost⟩
  · rw [ground_detection_on_ground, h2]

theorem c1_witness :
    ((groundScan baseState.g_dir c1Buf).1 = none ↔ groundSweeps c1Buf = []) ∧
    (∀ w, (groundScan baseState.g_dir c1Buf).1 = some w →
      ∃ pre post, groundSweeps c1Buf = pre ++ w :: post ∧
        (∀ u ∈ pre, EFloat.blt w.time u.time = true) ∧
        (∀ u ∈ post, EFloat.blt u.time w.time = false)) ∧
    ((ground_detection baseState c1Buf).on_ground =
      (baseState.on_ground || (groundSweeps c1Buf).any
        (fun sw => sw.normal.angleZero baseState.g_dir.reverse.as_vec2))) :=
  c1_ground_selection baseState c1Buf (by
    intro u hu
    simp [groundSweeps, c1Buf] at hu
    rcases hu with h | h <;> subst h
    · exact ⟨1, rfl⟩
    · exact ⟨0, rfl⟩)

/-! ## Claims C3 and C10: one rotation per airborne phase -/

theorem rotate_gravity_eq (s : PState) :
    rotate_gravity s =
      { (if currentVDir s ≠ s.last_v ∧ currentVDir s = s.g_dir ∧
            s.turned_this_jump = false
         then applyRotation s (currentHDir s)
         else s) with
        last_h := currentHDir s, last_v := currentVDir s } := rfl

theorem control_jump_g_dir (s : PState) (jp pr : Bool) (st : Settings) :
    (control_jump s jp pr st).g_dir = s.g_dir := by
  unfold control_jump
  split
  · rfl
  · split <;> rfl

theorem control_movement_g_dir (s : PState) (inp : MoveInput) (st : Settings) :
    (control_movement s inp st).g_dir = s.g_dir := rfl

theorem apply_gravity_g_dir (s : PState) :
    (apply_gravity s).g_dir = s.g_dir := by
  unfold apply_gravity
  split <;> rfl

theorem falling_detection_g_dir (s : PState) (buf : List CollisionEvent) :
    (falling_detection s buf).g_dir = s.g_dir := by
  unfold falling_detection
  split
  · rfl
  · split <;> rfl

theorem control_jump_turned (s : PState) (jp pr : Bool) (st : Settings)
    (hg : s.on_ground = false) :
    (control_jump s jp pr st).turned_this_jump = s.turned_this_jump := by
  unfold control_jump
  cases jp with
  | true => rw [hg]; rfl
  | false => rfl

theorem control_movement_turned (s : PState) (inp : MoveInput) (st : Settings) :
    (control_movement s inp st).turned_this_jump = s.turned_this_jump := rfl

theorem apply_gravity_turned (s : PState) :
    (apply_gravity s).turned_this_jump = s.turned_this_jump := by
  unfold apply_gravity
  split <;> rfl

theorem falling_detection_turned (s : PState) (buf : List CollisionEvent) :
    (falling_detection s buf).turned_this_jump = s.turned_this_jump := by
  unfold falling_detection
  split
  · rfl
  · split <;> rfl

theorem ground_detection_turned_true (s : PState) (buf : List CollisionEvent)
    (ht : s.turned_this_jump = true) :
    (ground_detection s buf).turned_this_jump = true := by
  unfold ground_detection
  cases h1 : (groundScan s.g_dir buf).1 <;>
    cases h2 : (groundScan s.g_dir buf).2 <;>
      simp [h1, h2, ht]

theorem rotate_gravity_turned_true (s : PState)
    (ht : s.turned_this_jump = true) :
    (rotate_gravity s).turned_this_jump = true := by
  have hc : ¬(currentVDir s ≠ s.last_v ∧ currentVDir s = s.g_dir ∧
      s.turned_this_jump = false) := by
    intro h
    rw [ht] at h
    exact Bool.noConfusion h.2.2
  rw [rotate_gravity_eq, if_neg hc]
  exact ht

theorem step_preserves_turned {s t : PState} (hst : Step s t)
    (hg : s.on_ground = false) (ht : s.turned_this_jump = true) :
    t.turned_this_jump = true := by
  cases hst with
  | jump jp pr st => rw [control_jump_turned s jp pr st hg]; exact ht
  | move inp st => rw [control_movement_turned s inp st]; exact ht
  | rotate => exact rotate_gravity_turned_true s ht
  | grav => rw [apply_gravity_turned s]; exact ht
  | accel dt st => exact ht
  | vel dt => exact ht
  | falling buf => rw [falling_detection_turned s buf]; exact ht
  | ground buf => exact ground_detection_turned_true s buf ht

theorem step_g_dir_change {s t : PState} (hst : Step s t)
    (hne : t.g_dir ≠ s.g_dir) :
    s.turned_this_jump = false ∧ t.turned_this_jump = true := by
  cases hst with
  | jump jp pr st => exact absurd (control_jump_g_dir s jp pr st) hne
  | move inp st => exact absurd (control_movement_g_dir s inp st) hne
  | grav => exact absurd (apply_gravity_g_dir s) hne
  | accel dt st => exact absurd rfl hne
  | vel dt => exact absurd rfl hne
  | falling buf => exact absurd (falling_detection_g_dir s buf) hne
  | ground buf => exact absurd (ground_detection_g_dir s buf) hne
  | rotate =>
      by_cases hc : currentVDir s ≠ s.last_v ∧ currentVDir s = s.g_dir ∧
          s.turned_this_jump = false
      · refine ⟨hc.2.2, ?_⟩
        rw [rotate_gravity_eq, if_pos hc]
        rfl
      · exfalso
        apply hne
        rw [rotate_gravity_eq, if_neg hc]

theorem airsteps_no_rotation {s u : PState} {n : ℕ}
    (h : AirSteps s u n) (ht : s.turned_this_jump = true) : n = 0 := by
  induction h with
  | refl s => rfl
  | @step s t u n hg hst hrest ih =>
      have ht' := step_preserves_turned hst hg ht
      have hcount : rotCount s t = 0 := by
        unfold rotCount
        split
        · rfl
        case isFalse hne =>
          exfalso
          rcases step_g_dir_change hst (fun he => hne he.symm) with ⟨hf, _⟩
          rw [ht] at hf
          cases hf
      rw [hcount, ih ht']

/-- Claim C3 counterexample: leaving the ground by falling detection does
not reset turned_this_jump: a grounded entity carrying
turned_this_jump = true and no buffered ground ray hits becomes airborne
with turned_this_jump still true — the reset happens only in the jump
path of control_jump. -/
theorem c3_counterexample :
    (falling_detection landedTurnedState []).on_ground = false ∧
    (falling_detection landedTurnedState []).turned_this_jump = true := by
  constructor <;> rfl

/-- Claim C3 (amended): along any run of system steps at each of which the
entity is airborne (on_ground = false when the step fires), the gravity
direction is rotated at most once: a rotation requires
turned_this_jump = false and sets it to true, and no airborne step resets
it. turned_this_jump is reset to false only when the entity leaves the
ground by jumping; leaving the ground via falling detection does not
reset it, which can only forbid further rotation. -/
theorem c3_single_rotation {s u : PState} {n : ℕ} (h : AirSteps s u n) :
    n ≤ 1 := by
  induction h with
  | refl s => exact Nat.zero_le 1
  | @step s t u n hg hst hrest ih =>
      by_cases hchange : s.g_dir = t.g_dir
      · rw [show rotCount s t = 0 from by unfold rotCount; rw [if_pos hchange]]
        simpa using ih
      · have h2 := step_g_dir_change hst (fun he => hchange he.symm)
        have hrot : rotCount s t = 1 := by
          unfold rotCount
          rw [if_neg hchange]
        rw [hrot, airsteps_no_rotation hrest h2.2]

theorem c3_witness : rotCount rotState (rotate_gravity rotState) + 0 ≤ 1 :=
  c3_single_rotation
    (AirSteps.step rfl (Step.rotate rotState)
      (AirSteps.refl (rotate_gravity rotState)))

/-- Claim C10: when the winning (first minimal-time) ground sweep's normal
converted to a Direction equals the entity's current gravity direction (a
head-on hit against gravity), ground_detection sets turned_this_jump to
true even though the gravity direction is unchanged, so no gravity
rotation can occur during any further airborne steps of that phase. -/
theorem c10_headon_sets_turned (s : PState) (buf : List CollisionEvent)
    (w : Sweep) (hw : (groundScan s.g_dir buf).1 = some w)
    (hn : Direction.from_vec2 w.normal = some s.g_dir) :
    (ground_detection s buf).turned_this_jump = true ∧
    (ground_detection s buf).g_dir = s.g_dir ∧
    ∀ u n, AirSteps (ground_detection s buf) u n → n = 0 := by
  have hturn : (ground_detection s buf).turned_this_jump = true := by
    unfold ground_detection
    cases h2 : (groundScan s.g_dir buf).2 <;> simp [hw, h2, hn]
  exact ⟨hturn, ground_detection_g_dir s buf,
    fun u n h => airsteps_no_rotation h hturn⟩

theorem c10_witness :
    (ground_detection baseState c10Buf).turned_this_jump = true ∧
    (ground_detection baseState c10Buf).g_dir = baseState.g_dir ∧
    ∀ u n, AirSteps (ground_detection baseState c10Buf) u n → n = 0 :=
  c10_headon_sets_turned baseState c10Buf ⟨EVec2.zero, .fin 0, ⟨0, -1⟩⟩
    (by norm_num [groundScan, c10Buf, groundScanStep, List.foldl, baseState])
    (by norm_num [Direction.from_vec2, baseState, Vec2.mk.injEq])
